import Mathlib

/-!
Verification of the terminal-emulator state core of `learn-rendering`.

The development shallowly embeds the code of `src/lib.rs` (the `Terminal`
struct: pen state, write queue, graphic rendition, erase engine) and
`src/display.rs` (the `Display` control dispatcher: print, execute-control,
CSI dispatch, save/restore cursor, glyph scale computation).

Conventions used throughout:
* Rust `usize`/`i64` become `Nat`/`Int`; an `as usize` cast of an `i64`
  is reduction modulo 2^64, a `try_into().unwrap_or(d)` into `u8` is a
  range test against 0..255 with default `d`.
* Fallible code (the unguarded `usize` decrement in Reverse Index, which
  panics in debug builds and wraps in release builds) returns `Option`.
* The `term` crate (cell grid, cursor) and the `vte` crate (tokenizer)
  are dependencies whose sources are not part of this repository; the
  grid operations the dispatcher calls are modelled from the spec and
  marked as such in their doc comments.  Everything else is translated
  from the repository source.
* Rust `f32` arithmetic in the glyph-scale heuristic is modelled over `ℚ`;
  the claims under scrutiny distinguish values (10/13 versus 5/6) that are
  far apart relative to any f32 rounding of the constant 0.1.
-/

namespace LearnRendering

/-- RGBA color with u8 channels, as used by `term::data::RGBA` in the source. -/
structure RGBA where
  r : Nat
  g : Nat
  b : Nat
  a : Nat
deriving DecidableEq

/-- Three-tier color representation (`term::data::Color` as constructed by the
source): base-16 palette index, 256-entry palette index, or direct RGBA. -/
inductive Color where
  | IndexBase (i : Nat)
  | Index256 (i : Nat)
  | Rgba (c : RGBA)
deriving DecidableEq

/-- Modelled from the spec: `term::data::Attribute` is absent from src/; the
spec (§3, AttributeSet) describes a closed 4-bit-encodable set of the flags
normal/bold/reverse/underline/blink.  The source only ever calls
`Attribute::default()` and `clone()`. -/
structure Attribute where
  bold : Bool
  rev : Bool
  underline : Bool
  blink : Bool
deriving DecidableEq

/-- The `Attribute::default()` value: all flags off (normal). -/
def Attribute.default : Attribute := ⟨false, false, false, false⟩

/-- One grid cell, with the exact fields the source constructs in
`Terminal::add_new_cell` (src/lib.rs:5587-5597).  The `sixel_data` payload is
opaque to every claim and is modelled as `Option Unit`. -/
structure Cell where
  c : Char
  fg : Color
  bg : Color
  attr : Attribute
  sixel_data : Option Unit
  erasable : Bool
  dirty : Bool
deriving DecidableEq

/-- Cursor (`term::data::cursor::Cursor`).  The source accesses exactly
`cursor.line.0` and `cursor.column.0` (usize newtypes), flattened to `Nat`. -/
structure Cursor where
  line : Nat
  column : Nat
deriving DecidableEq

/-- Modelled from the spec: the Cell Grid (`term::data::grids::Grid`), whose
source is not in this repository.  Spec §4.4: the viewport is rows of exactly
`cols` cells each.  Scrolled-off history retention is not modelled (no claim
concerns it); scrolling drops the oldest viewport row. -/
structure Grid where
  cols : Nat
  rows : List (List Cell)
deriving DecidableEq

/-- Modelled from the spec: a freshly created blank cell — space character,
default pen colors (fg index 7, bg index 0, normal attribute), unprotected
(`erasable` true), clean. -/
def blankCell : Cell :=
  ⟨' ', Color.IndexBase 7, Color.IndexBase 0, Attribute.default, none, true, false⟩

/-- Modelled from the spec: `Grid::new` — a viewport of `rows` rows, each of
exactly `cols` blank cells (spec §4.4 invariant). -/
def Grid.new (cols rows : Nat) : Grid :=
  ⟨cols, List.replicate rows (List.replicate cols blankCell)⟩

/-- Update the element at index `i` of a list in place (total; out-of-range
indices leave the list unchanged, mirroring early-return on bad indices). -/
def updateAt {α : Type} (f : α → α) : List α → Nat → List α
  | [], _ => []
  | x :: xs, 0 => f x :: xs
  | x :: xs, n + 1 => x :: updateAt f xs n

/-- Write one cell at (line, col) of the grid. -/
def Grid.setCell (g : Grid) (line col : Nat) (cell : Cell) : Grid :=
  { g with rows := updateAt (fun row => updateAt (fun _ => cell) row col) g.rows line }

/-- Modelled from the spec: cursor normalization inside `Grid::input_insert`
(§4.4) — wrap to the next row when the column capacity is exceeded, and
scroll (drop the oldest viewport row, append a blank row) when the cursor
passes the last row. -/
def Grid.normCursor (g : Grid) (cur : Cursor) : Grid × Cursor :=
  let cur1 : Cursor := if g.cols ≤ cur.column then ⟨cur.line + 1, 0⟩ else cur
  if g.rows.length ≤ cur1.line ∧ g.rows.length ≠ 0 then
    ({ g with rows := g.rows.tail ++ [List.replicate g.cols blankCell] },
     ⟨g.rows.length - 1, cur1.column⟩)
  else (g, cur1)

/-- Modelled from the spec: `Grid::input_insert` (§4.4) — commits a batch of
pending cells starting at the cursor position, advancing the cursor, wrapping
to the next row when the column capacity is exceeded. -/
def Grid.input_insert (g : Grid) : List Cell → Cursor → Grid × Cursor
  | [], cur => (g, cur)
  | cell :: rest, cur =>
    let p := g.normCursor cur
    let g2 := p.1.setCell p.2.line p.2.column cell
    g2.input_insert rest ⟨p.2.line, p.2.column + 1⟩

/-- The terminal state core (src/lib.rs:5465-5476).  The read-only
16-entry colorscheme reference is configuration no claim resolves colors
through and is not carried in the state. -/
structure Terminal where
  fg : Color
  bg : Color
  attr : Attribute
  dark_mode : Bool
  data : Grid
  write_stack : List Cell
deriving DecidableEq

/-- `Terminal::new` (src/lib.rs:5479-5489): default pen fg index 7, bg
index 0, normal attribute, dark mode off, blank grid, empty write queue. -/
def Terminal.new (max_row max_col : Nat) : Terminal :=
  ⟨Color.IndexBase 7, Color.IndexBase 0, Attribute.default, false,
   Grid.new max_col max_row, []⟩

/-- `Terminal::update` (src/lib.rs:5499-5502): flush the write queue into the
grid at the cursor via `input_insert`, emptying the queue. -/
def Terminal.update (t : Terminal) (cur : Cursor) : Terminal × Cursor :=
  let p := t.data.input_insert t.write_stack cur
  ({ t with data := p.1, write_stack := [] }, p.2)

/-- `Terminal::reset_graphic` (src/lib.rs:5504-5508). -/
def Terminal.reset_graphic (t : Terminal) : Terminal :=
  { t with fg := Color.IndexBase 7, bg := Color.IndexBase 0, attr := Attribute.default }

/-- `Terminal::set_attr` (src/lib.rs:5510).  The source body is empty —
the attribute parameter is accepted and discarded. -/
def Terminal.set_attr (t : Terminal) (val : Int) : Terminal := t

/-- An `i64 as usize` cast: reduction modulo 2^64. -/
def usize_of_i64 (v : Int) : Nat := (v % (2 : Int) ^ 64).toNat

/-- An `i64` to `u8` conversion via `try_into().unwrap_or(dflt)`. -/
def u8_of_i64 (v : Int) (dflt : Nat) : Nat :=
  if 0 ≤ v ∧ v ≤ 255 then v.toNat else dflt

/-- One channel of the direct-color form: `rgb.get(i).map_or_else(default,
try_into().unwrap_or(default))` (src/lib.rs:5550-5581). -/
def channel (rgb : List Int) (i : Nat) (dflt : Nat) : Nat :=
  match rgb.get? i with
  | none => dflt
  | some v => u8_of_i64 v dflt

/-- The RGBA value built by the `38,2,...` / `48,2,...` arms of
`Terminal::rendition`: color channels default to 0, alpha to 255. -/
def rgba_of_params (rgb : List Int) : RGBA :=
  ⟨channel rgb 0 0, channel rgb 1 0, channel rgb 2 0, channel rgb 3 255⟩

/-- One parameter of the short-form SGR list (src/lib.rs:5514-5535):
0 resets the pen, 1-27 goes to the empty `set_attr`, 30-37 picks a base
foreground (`val-30` in dark mode, `val-30+8` otherwise), 38 alone resets
the foreground to index 7, 40-47 picks a base background — the source
computes `val-30` / `val-30+8` here as well — and 49 resets the background
to index 0; anything else is ignored. -/
def Terminal.apply_short (t : Terminal) (val : Int) : Terminal :=
  if val = 0 then t.reset_graphic
  else if 1 ≤ val ∧ val ≤ 27 then t.set_attr val
  else if 30 ≤ val ∧ val ≤ 37 then
    if t.dark_mode then { t with fg := Color.IndexBase (val - 30).toNat }
    else { t with fg := Color.IndexBase (val - 30 + 8).toNat }
  else if val = 38 then { t with fg := Color.IndexBase 7 }
  else if 40 ≤ val ∧ val ≤ 47 then
    if t.dark_mode then { t with bg := Color.IndexBase (val - 30).toNat }
    else { t with bg := Color.IndexBase (val - 30 + 8).toNat }
  else if val = 49 then { t with bg := Color.IndexBase 0 }
  else t

/-- Core of `Terminal::rendition` (src/lib.rs:5512-5585), taking the
parameter list reversed so that the Rust slice suffix patterns
`[pre @ .., 38, 5, index]` and `[pre @ .., 48, 5, index]` become structural
prefix patterns.  Short lists (length at most 2) fold `apply_short` over the
parameters in their original order; a trailing `38,5,N` triple recurses on
the prefix and then sets the foreground to `Index256 N`; a trailing
`48,5,N` triple recurses on the prefix and then — exactly as in the source —
also sets the *foreground* to `Index256 N`; otherwise a leading `38,2,...`
or `48,2,...` selects a direct color, and unmatched lists are ignored. -/
def Terminal.rendition_core (t : Terminal) : List Int → Terminal
  | index :: 5 :: 38 :: preRev =>
      { t.rendition_core preRev with fg := Color.Index256 (usize_of_i64 index) }
  | index :: 5 :: 48 :: preRev =>
      { t.rendition_core preRev with fg := Color.Index256 (usize_of_i64 index) }
  | psRev =>
    if psRev.length ≤ 2 then psRev.reverse.foldl Terminal.apply_short t
    else
      match psRev.reverse with
      | 38 :: 2 :: rgb => { t with fg := Color.Rgba (rgba_of_params rgb) }
      | 48 :: 2 :: rgb => { t with bg := Color.Rgba (rgba_of_params rgb) }
      | _ => t

/-- `Terminal::rendition` (src/lib.rs:5512-5585) on the parameter list in
source order. -/
def Terminal.rendition (t : Terminal) (ps : List Int) : Terminal :=
  t.rendition_core ps.reverse

/-- `Terminal::add_new_cell` (src/lib.rs:5587-5597): push a cell tagged with
the current pen state onto the write queue; `erasable` is always true. -/
def Terminal.add_new_cell (t : Terminal) (c : Char) : Terminal :=
  { t with write_stack :=
      t.write_stack ++ [⟨c, t.fg, t.bg, t.attr, none, true, false⟩] }

/-- Reset of one cell performed by both erase operations
(src/lib.rs:5617-5621 and 5636-5640): space character, dirty, default
colors and attribute; `erasable` and `sixel_data` are left as they were. -/
def clearCell (cell : Cell) : Cell :=
  { cell with
    c := ' ', dirty := true, bg := Color.IndexBase 0,
    fg := Color.IndexBase 7, attr := Attribute.default }

/-- The loop body of `Terminal::erase_line_range_unchecked`
(src/lib.rs:5610-5622) over the explicit index list of the range: return as
soon as an index exceeds `row.length - 1` (the source computes `len - 1` on a
usize, so the bound check is stated with truncated subtraction), skip — via
`continue` — any cell the filter rejects, and clear the rest in place. -/
def eraseLineLoop (p : Cell → Bool) : List Cell → List Nat → List Cell
  | row, [] => row
  | row, i :: rest =>
    if row.length - 1 < i then row
    else if p (row.getD i blankCell) then
      eraseLineLoop p (updateAt clearCell row i) rest
    else eraseLineLoop p row rest

/-- The index list of a Rust range `lo..hi`. -/
def rangeList (lo hi : Nat) : List Nat := List.range' lo (hi - lo)

/-- `Terminal::erase_line_range_unchecked` (src/lib.rs:5599-5623): early
return unless `line` passes the source's guard `data.len() < line` (the guard
admits `line == len`; the resulting out-of-range row access is modelled as a
no-op by the total `updateAt`), then run the clearing loop over the column
range on that row. -/
def Terminal.erase_line_range_unchecked (t : Terminal) (line lo hi : Nat)
    (p : Cell → Bool) : Terminal :=
  if t.data.rows.length < line then t
  else
    { t with
      data :=
      { t.data with
        rows :=
          updateAt (fun row => eraseLineLoop p row (rangeList lo hi))
            t.data.rows line } }

/-- The per-row body of `Terminal::erase_range_unchecked`
(src/lib.rs:5632-5641): `take_while(filter).for_each(clear)` on a mutable
iterator — cells are cleared in place while the filter holds and iteration
stops at the first cell the filter rejects, leaving it and everything after
it untouched. -/
def clearWhile (p : Cell → Bool) : List Cell → List Cell
  | [] => []
  | cell :: rest =>
    if p cell then clearCell cell :: clearWhile p rest else cell :: rest

/-- `Terminal::erase_range_unchecked` (src/lib.rs:5626-5643): apply the
stop-at-first-rejected clearing pass to every row in the line range (an
out-of-range row index, which would panic in the source, is a no-op under the
total `updateAt`). -/
def Terminal.erase_range_unchecked (t : Terminal) (lo hi : Nat)
    (p : Cell → Bool) : Terminal :=
  (rangeList lo hi).foldl
    (fun acc i =>
      { acc with data :=
        { acc.data with rows := updateAt (clearWhile p) acc.data.rows i } })
    t

/-- The display state owned by `Display` (src/display.rs:12-23): live cursor,
optional saved-cursor snapshot, and the terminal core.  Font handles and
pixel metrics take no part in any claim about this state machine. -/
structure DisplayState where
  cursor : Cursor
  saved_cursor : Option Cursor
  term : Terminal
deriving DecidableEq

/-- A fresh display over a `rows` × `cols` viewport with the cursor at the
origin and no saved cursor (src/display.rs:26-48; the source derives the two
counts from the window size in pixels, which is outside the model). -/
def DisplayState.new (rows cols : Nat) : DisplayState :=
  ⟨⟨0, 0⟩, none, Terminal.new rows cols⟩

/-- The control functions `Display::execute_control`
(src/display.rs:161-206) acts on.  Every arm of the source match whose body
is empty (bell, tabs, shift states, XON/XOFF, line-size directives, and the
rest) is collapsed into `other`. -/
inductive ControlFunction where
  | lineFeed
  | carriageReturn
  | reverseIndex
  | other
deriving DecidableEq

/-- `Display::execute_control` (src/display.rs:161-206).  Line feed flushes
the write queue then sets column 0 and increments the line; carriage return
flushes then sets column 0; Reverse Index performs `self.cursor.line.0 -= 1`
with no lower-bound guard — on a usize this underflows at line 0 (a panic in
debug builds, a silent wrap in release builds), modelled as `none`. -/
def DisplayState.execute_control (s : DisplayState) :
    ControlFunction → Option DisplayState
  | ControlFunction.lineFeed =>
    let p := s.term.update s.cursor
    some { s with term := p.1, cursor := ⟨p.2.line + 1, 0⟩ }
  | ControlFunction.carriageReturn =>
    let p := s.term.update s.cursor
    some { s with term := p.1, cursor := ⟨p.2.line, 0⟩ }
  | ControlFunction.reverseIndex =>
    if s.cursor.line = 0 then none
    else some { s with cursor := ⟨s.cursor.line - 1, s.cursor.column⟩ }
  | ControlFunction.other => some s

/-- The CSI control functions `Display::csi_dispatch` (src/display.rs:229-363)
acts on; every arm of the source whose body is empty is collapsed into
`other`.  Both save-cursor opcodes (the private `SaveCursor` and the
ANSI-standard `SaveCursorPosition`) and both restore opcodes are kept
separate so the claim about the pair can be stated. -/
inductive CsiFunction where
  | darkMode (d : Bool)
  | graphicRendition (ps : List Int)
  | eraseInDisplay (flag : Nat)
  | selectiveEraseDisplay (flag : Nat)
  | eraseInLine (flag : Nat)
  | selectiveEraseLine (flag : Nat)
  | saveCursor
  | saveCursorPosition
  | restoreCursor
  | restoreSavedCursor
  | other
deriving DecidableEq

/-- The length of a row of the grid (`self.term.data[line].len()` in the
source, which panics when the line is out of range; modelled total). -/
def Grid.rowLen (g : Grid) (line : Nat) : Nat := (g.rows.getD line []).length

/-- The erase-in-display body shared by `EraseInDisplay` and
`SelectiveEraseDisplay` (src/display.rs:242-297), which differ only in the
predicate handed to the erase engine.  Mode 0 clears from the cursor to the
end of its line and then every following row; mode 1 clears every row above
the cursor and then its line up to the cursor column; mode 2 clears every
row; any other flag is ignored. -/
def DisplayState.eraseDisplayWith (s : DisplayState) (flag : Nat)
    (p : Cell → Bool) : DisplayState :=
  if flag = 0 then
    let rl := s.term.data.rowLen s.cursor.line
    let cl := s.term.data.rows.length
    let t1 := s.term.erase_line_range_unchecked s.cursor.line s.cursor.column rl p
    { s with term := t1.erase_range_unchecked (s.cursor.line + 1) cl p }
  else if flag = 1 then
    let t1 := s.term.erase_range_unchecked 0 s.cursor.line p
    { s with term := t1.erase_line_range_unchecked s.cursor.line 0 s.cursor.column p }
  else if flag = 2 then
    { s with term := s.term.erase_range_unchecked 0 s.term.data.rows.length p }
  else s

/-- The erase-in-line body shared by `EraseInLine` and `SelectiveEraseLine`
(src/display.rs:298-345).  Mode 0 clears from the cursor column to the end of
the cursor line, mode 1 from column 0 to the cursor column, mode 2 the whole
line; any other flag is ignored. -/
def DisplayState.eraseLineWith (s : DisplayState) (flag : Nat)
    (p : Cell → Bool) : DisplayState :=
  if flag = 0 then
    let rl := s.term.data.rowLen s.cursor.line
    { s with term :=
        s.term.erase_line_range_unchecked s.cursor.line s.cursor.column rl p }
  else if flag = 1 then
    { s with term :=
        s.term.erase_line_range_unchecked s.cursor.line 0 s.cursor.column p }
  else if flag = 2 then
    let rl := s.term.data.rowLen s.cursor.line
    { s with term := s.term.erase_line_range_unchecked s.cursor.line 0 rl p }
  else s

/-- `Display::csi_dispatch` (src/display.rs:229-363).  Dark-mode and graphic
rendition go to the pen, the four erase families go to the erase engine — the
selective variants pass the predicate `cell.erasable`, the unconditional
variants a constantly-true predicate — and the two save-cursor opcodes write
the saved-cursor slot while the two restore opcodes consume it, doing nothing
when it is empty. -/
def DisplayState.csi_dispatch (s : DisplayState) : CsiFunction → DisplayState
  | CsiFunction.darkMode d => { s with term := { s.term with dark_mode := d } }
  | CsiFunction.graphicRendition ps => { s with term := s.term.rendition ps }
  | CsiFunction.eraseInDisplay flag => s.eraseDisplayWith flag (fun _ => true)
  | CsiFunction.selectiveEraseDisplay flag =>
      s.eraseDisplayWith flag (fun cell => cell.erasable)
  | CsiFunction.eraseInLine flag => s.eraseLineWith flag (fun _ => true)
  | CsiFunction.selectiveEraseLine flag =>
      s.eraseLineWith flag (fun cell => cell.erasable)
  | CsiFunction.saveCursor => { s with saved_cursor := some s.cursor }
  | CsiFunction.saveCursorPosition => { s with saved_cursor := some s.cursor }
  | CsiFunction.restoreCursor =>
      match s.saved_cursor with
      | some cur => { s with cursor := cur, saved_cursor := none }
      | none => s
  | CsiFunction.restoreSavedCursor =>
      match s.saved_cursor with
      | some cur => { s with cursor := cur, saved_cursor := none }
      | none => s
  | CsiFunction.other => s

/-- The decoded tokens of the public handler interface
(src/display.rs:213-372): print, execute, escape dispatch and CSI dispatch.
The device-control and OS-command handlers are empty in the source.  Both
`execute` and `esc_dispatch` forward to `execute_control`. -/
inductive Token where
  | print (c : Char)
  | execute (cf : ControlFunction)
  | escDispatch (cf : ControlFunction)
  | csiDispatch (cf : CsiFunction)
deriving DecidableEq

/-- One handler invocation (`impl Handler for Display`,
src/display.rs:213-372). -/
def DisplayState.step (s : DisplayState) : Token → Option DisplayState
  | Token.print c => some { s with term := s.term.add_new_cell c }
  | Token.execute cf => s.execute_control cf
  | Token.escDispatch cf => s.execute_control cf
  | Token.csiDispatch cf => some (s.csi_dispatch cf)

/-- Processing of a token sequence through the handler interface, stopping
with `none` when a step fails. -/
def DisplayState.run (s : DisplayState) : List Token → Option DisplayState
  | [] => some s
  | tk :: rest =>
    match s.step tk with
    | none => none
    | some s' => s'.run rest

/-- The per-glyph cluster span computed in `Display::render_line`
(src/display.rs:119-123): the next glyph's cluster index minus this glyph's
when a next glyph exists, 1 for the last glyph of the run. -/
def cluster_span (clusters : List Nat) (i : Nat) : Nat :=
  match clusters.get? (i + 1), clusters.get? i with
  | some next, some cur => next - cur
  | _, _ => 1

/-- The render scale applied to one glyph (src/display.rs:131-134):
`1.0 / (1.0 + scale_factor as f32 * 0.1)` when the cluster span exceeds 1,
otherwise 1.0.  The f32 arithmetic is modelled over `ℚ`. -/
def render_scale (span : Nat) : ℚ :=
  if 1 < span then 1 / (1 + (span : ℚ) * (1 / 10)) else 1

/-- The scale of glyph `i` of a shaped run whose glyph cluster indices are
`clusters`. -/
def glyph_scale (clusters : List Nat) (i : Nat) : ℚ :=
  render_scale (cluster_span clusters i)

/-- The cell stored at (line, col) of the grid, if both indices are in
range. -/
def Grid.cellAt (g : Grid) (line col : Nat) : Option Cell :=
  (g.rows.getD line []).get? col

/-- The cell `Terminal::add_new_cell` builds for character `c` under the
current pen. -/
def Terminal.pen_cell (t : Terminal) (c : Char) : Cell :=
  ⟨c, t.fg, t.bg, t.attr, none, true, false⟩

/-- Overwrite the cells of a row at consecutive positions starting at `c`. -/
def overwrite : List Cell → Nat → List Cell → List Cell
  | row, _, [] => row
  | row, c, x :: xs => overwrite (updateAt (fun _ => x) row c) (c + 1) xs

/-- Well-formedness of the grid (spec §4.4 invariant): every viewport row
has exactly `cols` cells. -/
def Grid.WF (g : Grid) : Prop :=
  ∀ row ∈ g.rows, row.length = g.cols

/-- Every cell of a row is unprotected (`erasable` true). -/
def rowErasable (row : List Cell) : Prop := ∀ cell ∈ row, cell.erasable = true

/-- Every cell of every row of a grid is unprotected. -/
def gridErasable (g : Grid) : Prop := ∀ row ∈ g.rows, rowErasable row

/-- Every cell of the grid and of the write queue is unprotected
(`erasable` true). -/
def DisplayState.AllErasable (s : DisplayState) : Prop :=
  gridErasable s.term.data ∧
  (∀ cell ∈ s.term.write_stack, cell.erasable = true)

/-- States reachable from a fresh display through the public handler
interface (print, execute, esc_dispatch, csi_dispatch). -/
inductive Reachable : DisplayState → Prop where
  | init (rows cols : Nat) : Reachable (DisplayState.new rows cols)
  | step {s s' : DisplayState} (tk : Token) :
      Reachable s → s.step tk = some s' → Reachable s'

/-- An unprotected fixture cell holding a visible character. -/
def cellU : Cell := { blankCell with c := 'x' }

/-- A protected fixture cell: `erasable` is false. -/
def cellP : Cell := { blankCell with c := 'y', erasable := false }

/-- A fixture terminal whose single row is unprotected, protected,
unprotected — the protected cell sits at column 1 amid erasable
neighbours. -/
def termC4 : Terminal :=
  { Terminal.new 1 3 with data := ⟨3, [[cellU, cellP, cellU]]⟩ }

/-- A fixture terminal in dark mode. -/
def termDark : Terminal := { Terminal.new 2 2 with dark_mode := true }

/-- A fixture display state with the cursor away from the origin and no
saved cursor. -/
def stateC9 : DisplayState := { DisplayState.new 2 5 with cursor := ⟨1, 2⟩ }

/-- The fixture display state with a saved-cursor snapshot present. -/
def stateC9saved : DisplayState := { stateC9 with saved_cursor := some ⟨0, 1⟩ }

/-- The token sequence decoded from the bytes `A ESC [31m B ESC [0m C CR LF`
by the external tokenizer (spec §6/§8): print A, select graphic rendition 31,
print B, select graphic rendition 0, print C, carriage return, line feed. -/
def tokensC5 : List Token :=
  [Token.print 'A',
   Token.csiDispatch (CsiFunction.graphicRendition [31]),
   Token.print 'B',
   Token.csiDispatch (CsiFunction.graphicRendition [0]),
   Token.print 'C',
   Token.execute ControlFunction.carriageReturn,
   Token.execute ControlFunction.lineFeed]

/-! ### List update toolkit -/

theorem length_updateAt {α : Type} (f : α → α) :
    ∀ (l : List α) (i : Nat), (updateAt f l i).length = l.length
  | [], _ => rfl
  | _ :: _, 0 => rfl
  | x :: xs, n + 1 => by simp [updateAt, length_updateAt f xs n]

theorem get?_updateAt_self {α : Type} (f : α → α) :
    ∀ (l : List α) (i : Nat), (updateAt f l i).get? i = (l.get? i).map f
  | [], _ => by simp [updateAt]
  | x :: xs, 0 => by simp [updateAt]
  | x :: xs, n + 1 => by simpa [updateAt] using get?_updateAt_self f xs n

theorem get?_updateAt_ne {α : Type} (f : α → α) :
    ∀ (l : List α) (i j : Nat), i ≠ j → (updateAt f l i).get? j = l.get? j
  | [], _, _, _ => by simp [updateAt]
  | x :: xs, 0, 0, h => absurd rfl h
  | x :: xs, 0, j + 1, _ => by simp [updateAt]
  | x :: xs, i + 1, 0, _ => by simp [updateAt]
  | x :: xs, i + 1, j + 1, h => by
      simpa [updateAt] using get?_updateAt_ne f xs i j (fun hh => h (by simp [hh]))

theorem updateAt_id {α : Type} :
    ∀ (l : List α) (i : Nat), updateAt (fun x => x) l i = l
  | [], _ => rfl
  | x :: xs, 0 => rfl
  | x :: xs, n + 1 => by simp [updateAt, updateAt_id xs n]

theorem mem_updateAt {α : Type} (f : α → α) :
    ∀ (l : List α) (i : Nat) (y : α), y ∈ updateAt f l i →
      y ∈ l ∨ ∃ x, x ∈ l ∧ y = f x
  | [], i, y, h => by simp [updateAt] at h
  | x :: xs, 0, y, h => by
      rcases List.mem_cons.1 h with h | h
      · exact Or.inr ⟨x, List.mem_cons_self .., h⟩
      · exact Or.inl (List.mem_cons_of_mem _ h)
  | x :: xs, i + 1, y, h => by
      rcases List.mem_cons.1 h with h | h
      · exact Or.inl (h ▸ List.mem_cons_self ..)
      · rcases mem_updateAt f xs i y h with h | ⟨z, hz, hy⟩
        · exact Or.inl (List.mem_cons_of_mem _ h)
        · exact Or.inr ⟨z, List.mem_cons_of_mem _ hz, hy⟩

theorem updateAt_comp {α : Type} (f g : α → α) :
    ∀ (l : List α) (i : Nat),
      updateAt f (updateAt g l i) i = updateAt (fun x => f (g x)) l i
  | [], _ => rfl
  | x :: xs, 0 => rfl
  | x :: xs, n + 1 => by simp [updateAt, updateAt_comp f g xs n]

theorem updateAt_congr {α : Type} (f f' : α → α) :
    ∀ (l : List α) (i : Nat), (∀ x ∈ l, f x = f' x) →
      updateAt f l i = updateAt f' l i
  | [], _, _ => rfl
  | x :: xs, 0, h => by simp [updateAt, h x (List.mem_cons_self ..)]
  | x :: xs, n + 1, h => by
      simp only [updateAt, List.cons.injEq, true_and]
      exact updateAt_congr f f' xs n (fun z hz => h z (List.mem_cons_of_mem _ hz))

theorem length_overwrite :
    ∀ (L : List Cell) (row : List Cell) (c : Nat),
      (overwrite row c L).length = row.length
  | [], _, _ => rfl
  | x :: xs, row, c => by
      simp [overwrite, length_overwrite xs _ (c + 1), length_updateAt]

theorem get?_overwrite_lt :
    ∀ (L : List Cell) (row : List Cell) (c j : Nat), j < c →
      (overwrite row c L).get? j = row.get? j
  | [], _, _, _, _ => rfl
  | x :: xs, row, c, j, h => by
      rw [overwrite, get?_overwrite_lt xs _ (c + 1) j (Nat.lt_succ_of_lt h),
        get?_updateAt_ne _ _ _ _ (by omega)]

theorem get?_overwrite_ge :
    ∀ (L : List Cell) (row : List Cell) (c j : Nat), c + L.length ≤ j →
      (overwrite row c L).get? j = row.get? j
  | [], _, _, _, _ => rfl
  | x :: xs, row, c, j, h => by
      have h' : c + 1 + xs.length ≤ j := by
        simp only [List.length_cons] at h
        omega
      rw [overwrite, get?_overwrite_ge xs _ (c + 1) j h',
        get?_updateAt_ne _ _ _ _ (by omega)]

theorem get?_overwrite_in :
    ∀ (L : List Cell) (row : List Cell) (c i : Nat),
      i < L.length → c + L.length ≤ row.length →
      (overwrite row c L).get? (c + i) = L.get? i
  | [], _, _, i, hi, _ => absurd hi (by simp)
  | x :: xs, row, c, 0, hi, hb => by
      rw [overwrite, get?_overwrite_lt xs _ (c + 1) (c + 0) (by omega), Nat.add_zero,
        get?_updateAt_self]
      have hc : c < row.length := by simp at hb; omega
      rw [List.get?_eq_get hc]
      rfl
  | x :: xs, row, c, i + 1, hi, hb => by
      rw [overwrite, show c + (i + 1) = (c + 1) + i by omega]
      rw [get?_overwrite_in xs _ (c + 1) i (by simpa using hi)
        (by rw [length_updateAt]; simp at hb; omega)]
      rfl

/-! ### The rendition machine only moves the pen -/

theorem apply_short_preserves (t : Terminal) (v : Int) :
    (t.apply_short v).write_stack = t.write_stack ∧
    (t.apply_short v).data = t.data ∧
    (t.apply_short v).dark_mode = t.dark_mode := by
  unfold Terminal.apply_short Terminal.reset_graphic Terminal.set_attr
  repeat' split
  all_goals simp

theorem foldl_apply_short_preserves :
    ∀ (ps : List Int) (t : Terminal),
    (ps.foldl Terminal.apply_short t).write_stack = t.write_stack ∧
    (ps.foldl Terminal.apply_short t).data = t.data ∧
    (ps.foldl Terminal.apply_short t).dark_mode = t.dark_mode
  | [], t => ⟨rfl, rfl, rfl⟩
  | v :: vs, t => by
    have h1 := apply_short_preserves t v
    have h2 := foldl_apply_short_preserves vs (t.apply_short v)
    refine ⟨?_, ?_, ?_⟩
    · exact (List.foldl_cons .. ▸ h2.1).trans h1.1
    · exact (List.foldl_cons .. ▸ h2.2.1).trans h1.2.1
    · exact (List.foldl_cons .. ▸ h2.2.2).trans h1.2.2

theorem rendition_core_preserves (t : Terminal) :
    ∀ (psRev : List Int),
    (t.rendition_core psRev).write_stack = t.write_stack ∧
    (t.rendition_core psRev).data = t.data ∧
    (t.rendition_core psRev).dark_mode = t.dark_mode := by
  intro psRev
  induction psRev using Terminal.rendition_core.induct t with
  | case1 index preRev ih =>
    simpa [Terminal.rendition_core] using ih
  | case2 index preRev ih =>
    simpa [Terminal.rendition_core] using ih
  | case3 psRev h38 h48 hlen =>
    rw [Terminal.rendition_core.eq_def]
    split
    · exact (h38 _ _ rfl).elim
    · exact (h48 _ _ rfl).elim
    · rw [if_pos hlen]
      exact foldl_apply_short_preserves _ t
  | case4 psRev h38 h48 hlen rgb hrev =>
    rw [Terminal.rendition_core.eq_def]
    split
    · exact (h38 _ _ rfl).elim
    · exact (h48 _ _ rfl).elim
    · rw [if_neg hlen, hrev]
      simp
  | case5 psRev h38 h48 hlen rgb hrev =>
    rw [Terminal.rendition_core.eq_def]
    split
    · exact (h38 _ _ rfl).elim
    · exact (h48 _ _ rfl).elim
    · rw [if_neg hlen, hrev]
      simp
  | case6 psRev h38 h48 hlen hnot38 hnot48 =>
    rw [Terminal.rendition_core.eq_def]
    split
    · exact (h38 _ _ rfl).elim
    · exact (h48 _ _ rfl).elim
    · rw [if_neg hlen]
      split
      · simp
      · simp
      · simp

/-! ### Committing the write queue: in-bounds inserts -/

theorem input_insert_no_wrap :
    ∀ (L : List Cell) (g : Grid) (cur : Cursor),
      cur.line < g.rows.length → cur.column + L.length ≤ g.cols →
      g.input_insert L cur =
        ({ g with rows := updateAt (fun row => overwrite row cur.column L) g.rows cur.line },
         ⟨cur.line, cur.column + L.length⟩)
  | [], g, cur, _, _ => by
      cases cur
      simp [Grid.input_insert, overwrite, updateAt_id]
  | cell :: rest, g, cur, hline, hcol => by
      have hcollt : cur.column < g.cols := by simp at hcol; omega
      have hnorm : g.normCursor cur = (g, cur) := by
        simp [Grid.normCursor, Nat.not_le.2 hcollt, Nat.not_le.2 hline]
      simp only [Grid.input_insert, hnorm]
      have hline2 : cur.line < (g.setCell cur.line cur.column cell).rows.length := by
        simpa [Grid.setCell, length_updateAt] using hline
      have hcol2 : cur.column + 1 + rest.length ≤
          (g.setCell cur.line cur.column cell).cols := by
        simp only [Grid.setCell]
        simp at hcol ⊢
        omega
      rw [input_insert_no_wrap rest _ ⟨cur.line, cur.column + 1⟩ hline2 hcol2]
      simp only [Grid.setCell, updateAt_comp]
      simp only [Prod.mk.injEq, Grid.mk.injEq, Cursor.mk.injEq, List.length_cons]
      refine ⟨⟨?_, ?_⟩, ?_, ?_⟩ <;> first | rfl | trivial | omega

theorem cellAt_input_insert (L : List Cell) (g : Grid) (cur : Cursor)
    (hwf : g.WF) (hline : cur.line < g.rows.length)
    (hcol : cur.column + L.length ≤ g.cols) (i : Nat) (hi : i < L.length) :
    (g.input_insert L cur).1.cellAt cur.line (cur.column + i) = L.get? i := by
  rw [input_insert_no_wrap L g cur hline hcol]
  obtain ⟨row, hrow⟩ : ∃ row, g.rows.get? cur.line = some row :=
    ⟨_, List.get?_eq_get hline⟩
  have hlen : row.length = g.cols := hwf row (List.get?_mem hrow)
  have hup : (updateAt (fun r => overwrite r cur.column L) g.rows cur.line).get?
      cur.line = some (overwrite row cur.column L) := by
    rw [get?_updateAt_self, hrow]; rfl
  unfold Grid.cellAt
  simp only [List.getD_eq_getD_get?, hup, Option.getD_some]
  exact get?_overwrite_in L row cur.column i hi (by omega)

theorem cellAt_input_insert_frame (L : List Cell) (g : Grid) (cur : Cursor)
    (hline : cur.line < g.rows.length) (hcol : cur.column + L.length ≤ g.cols)
    (j : Nat) (hj : cur.column + L.length ≤ j) :
    (g.input_insert L cur).1.cellAt cur.line j = g.cellAt cur.line j := by
  rw [input_insert_no_wrap L g cur hline hcol]
  obtain ⟨row, hrow⟩ : ∃ row, g.rows.get? cur.line = some row :=
    ⟨_, List.get?_eq_get hline⟩
  have hup : (updateAt (fun r => overwrite r cur.column L) g.rows cur.line).get?
      cur.line = some (overwrite row cur.column L) := by
    rw [get?_updateAt_self, hrow]; rfl
  unfold Grid.cellAt
  simp only [List.getD_eq_getD_get?, hup, hrow, Option.getD_some]
  exact get?_overwrite_ge L row cur.column j hj

theorem rows_input_insert_frame (L : List Cell) (g : Grid) (cur : Cursor)
    (hline : cur.line < g.rows.length) (hcol : cur.column + L.length ≤ g.cols)
    (j : Nat) (hj : j ≠ cur.line) :
    (g.input_insert L cur).1.rows.get? j = g.rows.get? j := by
  rw [input_insert_no_wrap L g cur hline hcol]
  exact get?_updateAt_ne _ _ _ _ (fun h => hj h.symm)

theorem grid_new_wf (cols rows : Nat) : (Grid.new cols rows).WF := by
  intro row hrow
  simp only [Grid.new] at hrow
  rw [List.eq_of_mem_replicate hrow]
  simp [Grid.new]

/-! ### Runs of handler invocations -/

theorem run_append (s : DisplayState) :
    ∀ (l1 l2 : List Token),
      s.run (l1 ++ l2) = (s.run l1).bind (fun s' => s'.run l2)
  | [], l2 => by simp [DisplayState.run]
  | tk :: rest, l2 => by
      simp only [List.cons_append, DisplayState.run]
      cases s.step tk with
      | none => rfl
      | some s' => exact run_append s' rest l2

theorem run_prints :
    ∀ (cs : List Char) (s : DisplayState),
      s.run (cs.map Token.print) =
        some { s with term :=
          { s.term with write_stack :=
              s.term.write_stack ++ cs.map s.term.pen_cell } }
  | [], s => by simp [DisplayState.run]
  | c :: cs, s => by
      rw [List.map_cons]
      show DisplayState.run _ (Token.print c :: _) = _
      simp only [DisplayState.run, DisplayState.step]
      rw [run_prints cs _]
      simp [Terminal.add_new_cell, Terminal.pen_cell]

/-! ### Protection flags under every operation -/

theorem clearCell_erasable (cell : Cell) : (clearCell cell).erasable = cell.erasable := rfl

theorem rowErasable_updateAt_clearCell (row : List Cell) (i : Nat)
    (h : rowErasable row) : rowErasable (updateAt clearCell row i) := by
  intro y hy
  rcases mem_updateAt clearCell row i y hy with h1 | ⟨x, hx, hyx⟩
  · exact h y h1
  · rw [hyx, clearCell_erasable]
    exact h x hx

theorem rowErasable_clearWhile (p : Cell → Bool) :
    ∀ (row : List Cell), rowErasable row → rowErasable (clearWhile p row)
  | [], h => h
  | c :: rest, h => by
      intro y hy
      unfold clearWhile at hy
      by_cases hpc : p c = true
      · rw [if_pos hpc] at hy
        rcases List.mem_cons.1 hy with h1 | h1
        · rw [h1, clearCell_erasable]
          exact h c (List.mem_cons_self ..)
        · exact rowErasable_clearWhile p rest
            (fun z hz => h z (List.mem_cons_of_mem _ hz)) y h1
      · rw [if_neg hpc] at hy
        exact h y hy

theorem rowErasable_eraseLineLoop (p : Cell → Bool) :
    ∀ (is : List Nat) (row : List Cell), rowErasable row →
      rowErasable (eraseLineLoop p row is)
  | [], _, h => h
  | i :: rest, row, h => by
      unfold eraseLineLoop
      by_cases hg : row.length - 1 < i
      · rw [if_pos hg]
        exact h
      · rw [if_neg hg]
        by_cases hp : p (row.getD i blankCell) = true
        · rw [if_pos hp]
          exact rowErasable_eraseLineLoop p rest _ (rowErasable_updateAt_clearCell row i h)
        · rw [if_neg hp]
          exact rowErasable_eraseLineLoop p rest row h

theorem gridErasable_updateAt (f : List Cell → List Cell)
    (hf : ∀ row, rowErasable row → rowErasable (f row))
    (rows : List (List Cell)) (i : Nat)
    (h : ∀ row ∈ rows, rowErasable row) :
    ∀ row ∈ updateAt f rows i, rowErasable row := by
  intro row hrow
  rcases mem_updateAt f rows i row hrow with h1 | ⟨x, hx, hrx⟩
  · exact h row h1
  · rw [hrx]
    exact hf x (h x hx)

theorem rowErasable_blankRow (n : Nat) : rowErasable (List.replicate n blankCell) := by
  intro c hc
  rw [List.eq_of_mem_replicate hc]
  rfl

theorem normCursor_fst (g : Grid) (cur : Cursor) :
    (g.normCursor cur).1 = g ∨
    (g.normCursor cur).1 =
      { g with rows := g.rows.tail ++ [List.replicate g.cols blankCell] } := by
  unfold Grid.normCursor
  dsimp only
  split <;> split <;> first | exact Or.inl rfl | exact Or.inr rfl

theorem gridErasable_normCursor (g : Grid) (cur : Cursor) (h : gridErasable g) :
    gridErasable (g.normCursor cur).1 := by
  rcases normCursor_fst g cur with heq | heq <;> rw [heq]
  · exact h
  · intro row hrow
    rcases List.mem_append.1 hrow with h1 | h1
    · exact h row (List.mem_of_mem_tail h1)
    · have : row = List.replicate g.cols blankCell := by simpa using h1
      rw [this]
      exact rowErasable_blankRow g.cols

theorem gridErasable_setCell (g : Grid) (line col : Nat) (cell : Cell)
    (h : gridErasable g) (hc : cell.erasable = true) :
    gridErasable (g.setCell line col cell) := by
  unfold Grid.setCell
  intro row hrow
  refine gridErasable_updateAt _ ?_ g.rows line h row hrow
  intro r hr y hy
  rcases mem_updateAt (fun _ => cell) r col y hy with h1 | ⟨x, hx, hyx⟩
  · exact hr y h1
  · rw [hyx]
    exact hc

theorem gridErasable_input_insert :
    ∀ (L : List Cell) (g : Grid) (cur : Cursor), gridErasable g →
      (∀ cell ∈ L, cell.erasable = true) → gridErasable (g.input_insert L cur).1
  | [], g, _, hg, _ => hg
  | cell :: rest, g, cur, hg, hL => by
      have hstep : g.input_insert (cell :: rest) cur =
          (((g.normCursor cur).1.setCell (g.normCursor cur).2.line
              (g.normCursor cur).2.column cell).input_insert rest
            ⟨(g.normCursor cur).2.line, (g.normCursor cur).2.column + 1⟩) := rfl
      rw [hstep]
      exact gridErasable_input_insert rest _ _
        (gridErasable_setCell _ _ _ _ (gridErasable_normCursor g cur hg)
          (hL cell (List.mem_cons_self ..)))
        (fun z hz => hL z (List.mem_cons_of_mem _ hz))

theorem gridErasable_erase_line (t : Terminal) (line lo hi : Nat) (p : Cell → Bool)
    (h : gridErasable t.data) :
    gridErasable (t.erase_line_range_unchecked line lo hi p).data := by
  unfold Terminal.erase_line_range_unchecked
  by_cases hg : t.data.rows.length < line
  · rw [if_pos hg]
    exact h
  · rw [if_neg hg]
    exact gridErasable_updateAt _
      (fun row hr => rowErasable_eraseLineLoop p (rangeList lo hi) row hr) _ _ h

theorem gridErasable_erase_range_aux (p : Cell → Bool) :
    ∀ (is : List Nat) (t : Terminal), gridErasable t.data →
      gridErasable ((is.foldl
        (fun acc i =>
          { acc with data :=
            { acc.data with rows := updateAt (clearWhile p) acc.data.rows i } })
        t).data)
  | [], _, h => h
  | i :: rest, t, h => by
      rw [List.foldl_cons]
      exact gridErasable_erase_range_aux p rest _
        (gridErasable_updateAt _ (fun row hr => rowErasable_clearWhile p row hr) _ _ h)

theorem gridErasable_erase_range (t : Terminal) (lo hi : Nat) (p : Cell → Bool)
    (h : gridErasable t.data) :
    gridErasable (t.erase_range_unchecked lo hi p).data := by
  unfold Terminal.erase_range_unchecked
  exact gridErasable_erase_range_aux p (rangeList lo hi) t h

/-! ### Selective and unconditional erasure agree on unprotected grids -/

theorem getD_erasable (row : List Cell) (i : Nat) (h : rowErasable row) :
    (row.getD i blankCell).erasable = true := by
  by_cases hi : i < row.length
  · rw [List.getD_eq_getElem _ _ hi]
    exact h _ (List.getElem_mem ..)
  · rw [List.getD_eq_default _ _ (by omega)]
    rfl

theorem clearWhile_congr :
    ∀ (row : List Cell), rowErasable row →
      clearWhile (fun cell => cell.erasable) row = clearWhile (fun _ => true) row
  | [], _ => rfl
  | c :: rest, h => by
      unfold clearWhile
      rw [if_pos (h c (List.mem_cons_self ..)), if_pos rfl]
      rw [clearWhile_congr rest (fun z hz => h z (List.mem_cons_of_mem _ hz))]

theorem eraseLineLoop_congr :
    ∀ (is : List Nat) (row : List Cell), rowErasable row →
      eraseLineLoop (fun cell => cell.erasable) row is =
        eraseLineLoop (fun _ => true) row is
  | [], _, _ => rfl
  | i :: rest, row, h => by
      unfold eraseLineLoop
      by_cases hg : row.length - 1 < i
      · rw [if_pos hg, if_pos hg]
      · rw [if_neg hg, if_neg hg, if_pos (getD_erasable row i h), if_pos rfl]
        exact eraseLineLoop_congr rest _ (rowErasable_updateAt_clearCell row i h)

theorem erase_line_congr (t : Terminal) (line lo hi : Nat) (h : gridErasable t.data) :
    t.erase_line_range_unchecked line lo hi (fun cell => cell.erasable) =
      t.erase_line_range_unchecked line lo hi (fun _ => true) := by
  unfold Terminal.erase_line_range_unchecked
  by_cases hg : t.data.rows.length < line
  · rw [if_pos hg, if_pos hg]
  · rw [if_neg hg, if_neg hg]
    have : updateAt (fun row => eraseLineLoop (fun cell => cell.erasable) row (rangeList lo hi))
        t.data.rows line =
        updateAt (fun row => eraseLineLoop (fun _ => true) row (rangeList lo hi))
        t.data.rows line :=
      updateAt_congr _ _ _ _
        (fun row hrow => eraseLineLoop_congr (rangeList lo hi) row (h row hrow))
    rw [this]

theorem erase_range_congr_aux :
    ∀ (is : List Nat) (t : Terminal), gridErasable t.data →
      is.foldl (fun acc i =>
        { acc with data :=
          { acc.data with
            rows := updateAt (clearWhile (fun cell => cell.erasable)) acc.data.rows i } }) t =
      is.foldl (fun acc i =>
        { acc with data :=
          { acc.data with
            rows := updateAt (clearWhile (fun _ => true)) acc.data.rows i } }) t
  | [], _, _ => rfl
  | i :: rest, t, h => by
      simp only [List.foldl_cons]
      have hstep : updateAt (clearWhile (fun cell => cell.erasable)) t.data.rows i =
          updateAt (clearWhile (fun _ => true)) t.data.rows i :=
        updateAt_congr _ _ _ _ (fun row hrow => clearWhile_congr row (h row hrow))
      rw [hstep]
      exact erase_range_congr_aux rest _
        (gridErasable_updateAt _ (fun row hr => rowErasable_clearWhile _ row hr) _ _ h)

theorem erase_range_congr (t : Terminal) (lo hi : Nat) (h : gridErasable t.data) :
    t.erase_range_unchecked lo hi (fun cell => cell.erasable) =
      t.erase_range_unchecked lo hi (fun _ => true) := by
  unfold Terminal.erase_range_unchecked
  exact erase_range_congr_aux (rangeList lo hi) t h

theorem eraseDisplay_congr (s : DisplayState) (flag : Nat) (h : gridErasable s.term.data) :
    s.eraseDisplayWith flag (fun cell => cell.erasable) =
      s.eraseDisplayWith flag (fun _ => true) := by
  unfold DisplayState.eraseDisplayWith
  dsimp only
  by_cases h0 : flag = 0
  · rw [if_pos h0, if_pos h0]
    rw [erase_line_congr _ _ _ _ h]
    rw [erase_range_congr _ _ _ (gridErasable_erase_line _ _ _ _ _ h)]
  · rw [if_neg h0, if_neg h0]
    by_cases h1 : flag = 1
    · rw [if_pos h1, if_pos h1]
      rw [erase_range_congr _ _ _ h]
      rw [erase_line_congr _ _ _ _ (gridErasable_erase_range _ _ _ _ h)]
    · rw [if_neg h1, if_neg h1]
      by_cases h2 : flag = 2
      · rw [if_pos h2, if_pos h2]
        rw [erase_range_congr _ _ _ h]
      · rw [if_neg h2, if_neg h2]

theorem eraseLine_congr (s : DisplayState) (flag : Nat) (h : gridErasable s.term.data) :
    s.eraseLineWith flag (fun cell => cell.erasable) =
      s.eraseLineWith flag (fun _ => true) := by
  unfold DisplayState.eraseLineWith
  dsimp only
  by_cases h0 : flag = 0
  · rw [if_pos h0, if_pos h0, erase_line_congr _ _ _ _ h]
  · rw [if_neg h0, if_neg h0]
    by_cases h1 : flag = 1
    · rw [if_pos h1, if_pos h1, erase_line_congr _ _ _ _ h]
    · rw [if_neg h1, if_neg h1]
      by_cases h2 : flag = 2
      · rw [if_pos h2, if_pos h2, erase_line_congr _ _ _ _ h]
      · rw [if_neg h2, if_neg h2]

theorem erase_range_ws_aux (p : Cell → Bool) :
    ∀ (is : List Nat) (t : Terminal),
      ((is.foldl (fun acc i =>
        { acc with data :=
          { acc.data with rows := updateAt (clearWhile p) acc.data.rows i } }) t)).write_stack =
      t.write_stack
  | [], _ => rfl
  | i :: rest, t => by
      rw [List.foldl_cons]
      exact erase_range_ws_aux p rest _

theorem erase_range_ws (t : Terminal) (lo hi : Nat) (p : Cell → Bool) :
    (t.erase_range_unchecked lo hi p).write_stack = t.write_stack := by
  unfold Terminal.erase_range_unchecked
  exact erase_range_ws_aux p (rangeList lo hi) t

theorem erase_line_ws (t : Terminal) (line lo hi : Nat) (p : Cell → Bool) :
    (t.erase_line_range_unchecked line lo hi p).write_stack = t.write_stack := by
  unfold Terminal.erase_line_range_unchecked
  by_cases hg : t.data.rows.length < line
  · rw [if_pos hg]
  · rw [if_neg hg]

theorem eraseDisplayWith_allErasable (s : DisplayState) (flag : Nat) (p : Cell → Bool)
    (hg : gridErasable s.term.data)
    (hw : ∀ cell ∈ s.term.write_stack, cell.erasable = true) :
    (s.eraseDisplayWith flag p).AllErasable := by
  unfold DisplayState.eraseDisplayWith
  dsimp only
  by_cases h0 : flag = 0
  · rw [if_pos h0]
    refine ⟨gridErasable_erase_range _ _ _ _ (gridErasable_erase_line _ _ _ _ _ hg), ?_⟩
    intro cell hcell
    rw [erase_range_ws, erase_line_ws] at hcell
    exact hw cell hcell
  · rw [if_neg h0]
    by_cases h1 : flag = 1
    · rw [if_pos h1]
      refine ⟨gridErasable_erase_line _ _ _ _ _ (gridErasable_erase_range _ _ _ _ hg), ?_⟩
      intro cell hcell
      rw [erase_line_ws, erase_range_ws] at hcell
      exact hw cell hcell
    · rw [if_neg h1]
      by_cases h2 : flag = 2
      · rw [if_pos h2]
        refine ⟨gridErasable_erase_range _ _ _ _ hg, ?_⟩
        intro cell hcell
        rw [erase_range_ws] at hcell
        exact hw cell hcell
      · rw [if_neg h2]
        exact ⟨hg, hw⟩

theorem eraseLineWith_allErasable (s : DisplayState) (flag : Nat) (p : Cell → Bool)
    (hg : gridErasable s.term.data)
    (hw : ∀ cell ∈ s.term.write_stack, cell.erasable = true) :
    (s.eraseLineWith flag p).AllErasable := by
  unfold DisplayState.eraseLineWith
  dsimp only
  by_cases h0 : flag = 0
  · rw [if_pos h0]
    refine ⟨gridErasable_erase_line _ _ _ _ _ hg, ?_⟩
    intro cell hcell
    rw [erase_line_ws] at hcell
    exact hw cell hcell
  · rw [if_neg h0]
    by_cases h1 : flag = 1
    · rw [if_pos h1]
      refine ⟨gridErasable_erase_line _ _ _ _ _ hg, ?_⟩
      intro cell hcell
      rw [erase_line_ws] at hcell
      exact hw cell hcell
    · rw [if_neg h1]
      by_cases h2 : flag = 2
      · rw [if_pos h2]
        refine ⟨gridErasable_erase_line _ _ _ _ _ hg, ?_⟩
        intro cell hcell
        rw [erase_line_ws] at hcell
        exact hw cell hcell
      · rw [if_neg h2]
        exact ⟨hg, hw⟩

theorem exec_allErasable (s s' : DisplayState) (cf : ControlFunction)
    (hg : gridErasable s.term.data)
    (hw : ∀ cell ∈ s.term.write_stack, cell.erasable = true)
    (hstep : s.execute_control cf = some s') : s'.AllErasable := by
  cases cf with
  | lineFeed =>
      simp only [DisplayState.execute_control, Option.some.injEq] at hstep
      subst hstep
      exact ⟨gridErasable_input_insert _ _ _ hg hw,
        by intro cell hcell; simp [Terminal.update] at hcell⟩
  | carriageReturn =>
      simp only [DisplayState.execute_control, Option.some.injEq] at hstep
      subst hstep
      exact ⟨gridErasable_input_insert _ _ _ hg hw,
        by intro cell hcell; simp [Terminal.update] at hcell⟩
  | reverseIndex =>
      simp only [DisplayState.execute_control] at hstep
      by_cases h0 : s.cursor.line = 0
      · rw [if_pos h0] at hstep
        exact absurd hstep (by simp)
      · rw [if_neg h0] at hstep
        simp only [Option.some.injEq] at hstep
        subst hstep
        exact ⟨hg, hw⟩
  | other =>
      simp only [DisplayState.execute_control, Option.some.injEq] at hstep
      subst hstep
      exact ⟨hg, hw⟩

theorem csi_allErasable (s : DisplayState) (cf : CsiFunction)
    (hg : gridErasable s.term.data)
    (hw : ∀ cell ∈ s.term.write_stack, cell.erasable = true) :
    (s.csi_dispatch cf).AllErasable := by
  cases cf with
  | darkMode d => exact ⟨hg, hw⟩
  | graphicRendition ps =>
      refine ⟨?_, ?_⟩
      · show gridErasable (s.term.rendition ps).data
        rw [Terminal.rendition, (rendition_core_preserves s.term ps.reverse).2.1]
        exact hg
      · show ∀ cell ∈ (s.term.rendition ps).write_stack, cell.erasable = true
        rw [Terminal.rendition, (rendition_core_preserves s.term ps.reverse).1]
        exact hw
  | eraseInDisplay flag => exact eraseDisplayWith_allErasable s flag _ hg hw
  | selectiveEraseDisplay flag => exact eraseDisplayWith_allErasable s flag _ hg hw
  | eraseInLine flag => exact eraseLineWith_allErasable s flag _ hg hw
  | selectiveEraseLine flag => exact eraseLineWith_allErasable s flag _ hg hw
  | saveCursor => exact ⟨hg, hw⟩
  | saveCursorPosition => exact ⟨hg, hw⟩
  | restoreCursor =>
      show (match s.saved_cursor with
        | some cur => { s with cursor := cur, saved_cursor := none }
        | none => s).AllErasable
      cases s.saved_cursor with
      | some cur => exact ⟨hg, hw⟩
      | none => exact ⟨hg, hw⟩
  | restoreSavedCursor =>
      show (match s.saved_cursor with
        | some cur => { s with cursor := cur, saved_cursor := none }
        | none => s).AllErasable
      cases s.saved_cursor with
      | some cur => exact ⟨hg, hw⟩
      | none => exact ⟨hg, hw⟩
  | other => exact ⟨hg, hw⟩

theorem step_allErasable (s s' : DisplayState) (tk : Token)
    (h : s.AllErasable) (hstep : s.step tk = some s') : s'.AllErasable := by
  obtain ⟨hg, hw⟩ := h
  cases tk with
  | print c =>
      simp only [DisplayState.step, Option.some.injEq] at hstep
      subst hstep
      refine ⟨hg, ?_⟩
      intro cell hcell
      rcases List.mem_append.1 hcell with h1 | h1
      · exact hw cell h1
      · have : cell = ⟨c, s.term.fg, s.term.bg, s.term.attr, none, true, false⟩ := by
          simpa using h1
        rw [this]
  | execute cf => exact exec_allErasable s s' cf hg hw hstep
  | escDispatch cf => exact exec_allErasable s s' cf hg hw hstep
  | csiDispatch cf =>
      simp only [DisplayState.step, Option.some.injEq] at hstep
      subst hstep
      exact csi_allErasable s cf hg hw

theorem reachable_allErasable (s : DisplayState) (h : Reachable s) : s.AllErasable := by
  induction h with
  | init rows cols =>
      refine ⟨?_, ?_⟩
      · intro row hrow
        have hr2 : ¬ rows = 0 ∧ row = List.replicate cols blankCell := by
          simpa [DisplayState.new, Terminal.new, Grid.new] using hrow
        rw [hr2.2]
        exact rowErasable_blankRow cols
      · intro cell hcell
        simp [DisplayState.new, Terminal.new] at hcell
  | step tk hr hstep ih => exact step_allErasable _ _ tk ih hstep

theorem clearWhile_stop (p : Cell → Bool) :
    ∀ (row : List Cell) (k : Nat), k < row.length →
      (∀ j, j < k → p (row.getD j blankCell) = true) →
      p (row.getD k blankCell) = false →
      clearWhile p row = (row.take k).map clearCell ++ row.drop k
  | [], k, hk, _, _ => absurd hk (by simp)
  | c :: rest, 0, _, _, hprot => by
      have hc : p c = false := by simpa using hprot
      simp [clearWhile, hc]
  | c :: rest, k + 1, hk, hpre, hprot => by
      have hc : p c = true := by
        have := hpre 0 (Nat.succ_pos k)
        simpa using this
      simp only [clearWhile, hc, if_pos]
      rw [clearWhile_stop p rest k (by simpa using hk)
        (fun j hj => by simpa using hpre (j + 1) (by omega))
        (by simpa using hprot)]
      simp

/-! ### The claims -/

/-- Claim C1: for every sequence of Print tokens followed by a
graphic-rendition change and a later commit of the write queue into the grid
(here through the Line Feed flush point), each committed cell carries the
foreground color, background color and attribute that were the pen state at
the moment that character was printed — the pen state `s.term` held before
the rendition change — not the pen state in effect after the change. -/
theorem c1_flush_ordering (s : DisplayState) (cs : List Char) (ps : List Int)
    (hws : s.term.write_stack = [])
    (hwf : s.term.data.WF)
    (hline : s.cursor.line < s.term.data.rows.length)
    (hcol : s.cursor.column + cs.length ≤ s.term.data.cols) :
    ∃ s', s.run (cs.map Token.print ++
        [Token.csiDispatch (CsiFunction.graphicRendition ps),
         Token.execute ControlFunction.lineFeed]) = some s' ∧
      ∀ i, ∀ hi : i < cs.length,
        s'.term.data.cellAt s.cursor.line (s.cursor.column + i) =
          some ⟨cs.get ⟨i, hi⟩, s.term.fg, s.term.bg, s.term.attr, none, true, false⟩ := by
  rw [run_append, run_prints cs s]
  have hws1 : (({ s with term :=
      { s.term with write_stack := s.term.write_stack ++ cs.map s.term.pen_cell } }
        : DisplayState).term.rendition ps).write_stack = cs.map s.term.pen_cell := by
    rw [Terminal.rendition, (rendition_core_preserves _ ps.reverse).1]
    simp [hws]
  have hdata1 : (({ s with term :=
      { s.term with write_stack := s.term.write_stack ++ cs.map s.term.pen_cell } }
        : DisplayState).term.rendition ps).data = s.term.data := by
    rw [Terminal.rendition, (rendition_core_preserves _ ps.reverse).2.1]
  simp only [Option.some_bind, DisplayState.run, DisplayState.step,
    DisplayState.csi_dispatch, DisplayState.execute_control, Terminal.update]
  refine ⟨_, rfl, ?_⟩
  intro i hi
  simp only [hws1, hdata1]
  have hlen : (cs.map s.term.pen_cell).length = cs.length := by simp
  rw [cellAt_input_insert _ _ _ hwf hline (by rw [hlen]; exact hcol) i
    (by rw [hlen]; exact hi)]
  rw [List.get?_map, List.get?_eq_get hi]
  rfl

/-- Witness for C1 at a concrete state: one character printed from cursor
(1,2) of a 2-row, 5-column display, then SGR 35, then Line Feed. -/
theorem c1_flush_ordering_witness :
    ∃ s', stateC9.run (['X'].map Token.print ++
        [Token.csiDispatch (CsiFunction.graphicRendition [35]),
         Token.execute ControlFunction.lineFeed]) = some s' ∧
      ∀ i, ∀ hi : i < (['X'] : List Char).length,
        s'.term.data.cellAt stateC9.cursor.line (stateC9.cursor.column + i) =
          some ⟨(['X'] : List Char).get ⟨i, hi⟩, stateC9.term.fg, stateC9.term.bg,
            stateC9.term.attr, none, true, false⟩ :=
  c1_flush_ordering stateC9 ['X'] [35] rfl (grid_new_wf 5 2) (by decide) (by decide)

/-- Claim C2: the code bug behind it, evaluated at the failing input.  The
spec says a trailing `48,5,N` triple sets the background to
`ExtendedPalette N`; the source arm `[pre @ .., 48, 5, index]`
(src/lib.rs:5546-5549) assigns `self.fg` instead, so `[48,5,100]` sets the
foreground to `Index256 100` and leaves the background untouched, while the
`38,5,N` arm behaves as specified. -/
theorem c2_sgr_48_5_sets_foreground :
    ((Terminal.new 2 2).rendition [38, 5, 200]).fg = Color.Index256 200 ∧
    ((Terminal.new 2 2).rendition [48, 5, 100]).fg = Color.Index256 100 ∧
    ((Terminal.new 2 2).rendition [48, 5, 100]).bg = Color.IndexBase 0 := by
  refine ⟨?_, ?_, ?_⟩ <;> rfl

/-- Claim C3: the code bug behind it, evaluated at the failing inputs.  The
spec maps SGR 40-47 to background index `v-40` (dark mode) or `v-40+8`; the
source 40-47 arm (src/lib.rs:5526-5532) computes `val-30` / `val-30+8`
instead, so SGR 40 yields background index 10 in dark mode and 18 in light
mode (and SGR 47 yields 17 / 25, beyond the 16-entry base palette), while
the 30-37 foreground mapping matches the spec (SGR 31, light: index 9). -/
theorem c3_sgr_background_offset :
    (((Terminal.new 2 2).rendition [31]).fg = Color.IndexBase 9) ∧
    ((termDark.rendition [40]).bg = Color.IndexBase 10) ∧
    (((Terminal.new 2 2).rendition [40]).bg = Color.IndexBase 18) ∧
    ((termDark.rendition [47]).bg = Color.IndexBase 17) ∧
    (((Terminal.new 2 2).rendition [47]).bg = Color.IndexBase 25) := by
  refine ⟨?_, ?_, ?_, ?_, ?_⟩ <;> rfl

/-- Claim C4, counterexample: for the column-range selective erase
(`erase_line_range_unchecked`, the operation Selective-Erase-in-Line
dispatches to), a protected cell does not stop the scan.  On the fixture
row unprotected/protected/unprotected, erasing columns 0..3 selectively
changes the unprotected cell at column 2 behind the protected cell at
column 1, contradicting the claim that columns from the first protected
cell onward are left untouched. -/
theorem c4_line_erase_skips_protected :
    (termC4.erase_line_range_unchecked 0 0 3
        (fun cell => cell.erasable)).data.cellAt 0 2 ≠
      termC4.data.cellAt 0 2 := by
  decide

/-- Claim C4 as amended: the stop-at-first-protected-cell behavior belongs to
the row-range selective erase (`erase_range_unchecked`, whose per-row pass is
`take_while`): scanning a row whose cells before column k are unprotected and
whose cell at column k is protected clears exactly columns [0,k) and leaves
every cell from column k on unchanged — including unprotected cells after k.
The column-range variant `erase_line_range_unchecked` instead skips protected
cells and keeps scanning (see the counterexample). -/
theorem c4_range_erase_stops_at_protected (t : Terminal) (line k : Nat)
    (row : List Cell)
    (hrow : t.data.rows.get? line = some row)
    (hk : k < row.length)
    (hpre : ∀ j, j < k → (row.getD j blankCell).erasable = true)
    (hprot : (row.getD k blankCell).erasable = false) :
    (t.erase_range_unchecked line (line + 1)
        (fun cell => cell.erasable)).data.rows.get? line =
      some ((row.take k).map clearCell ++ row.drop k) := by
  have hr : rangeList line (line + 1) = [line] := by
    simp [rangeList]
  unfold Terminal.erase_range_unchecked
  rw [hr]
  simp only [List.foldl_cons, List.foldl_nil]
  rw [get?_updateAt_self, hrow]
  simp only [Option.map_some']
  rw [clearWhile_stop _ row k hk hpre hprot]

/-- Witness for C4 on the fixture terminal: the protected cell sits at
column 1; the selective row-range erase clears exactly column 0. -/
theorem c4_range_erase_stops_at_protected_witness :
    (termC4.erase_range_unchecked 0 1 (fun cell => cell.erasable)).data.rows.get? 0 =
      some (([cellU, cellP, cellU].take 1).map clearCell ++
        [cellU, cellP, cellU].drop 1) :=
  c4_range_erase_stops_at_protected termC4 0 1 [cellU, cellP, cellU] rfl (by norm_num)
    (fun j hj => by interval_cases j <;> decide) (by decide)

/-- Claim C5: processing the token sequence decoded from
`"A ESC[31m B ESC[0m C CR LF"` from a fresh display (any viewport with at
least one row and three columns) commits exactly three cells on row 0 —
`A` with the default foreground (index 7), `B` with the foreground SGR 31
selects from the initial (light-mode) state, namely base index 9, and `C`
with the default foreground again — leaves every other cell of the grid as
it was, and leaves the cursor at row 1, column 0. -/
theorem c5_end_to_end_scenario (rows cols : Nat) (hrows : 1 ≤ rows) (hcols : 3 ≤ cols) :
    ∃ s', (DisplayState.new rows cols).run tokensC5 = some s' ∧
      s'.cursor = ⟨1, 0⟩ ∧
      s'.term.data.cellAt 0 0 =
        some ⟨'A', Color.IndexBase 7, Color.IndexBase 0, Attribute.default, none, true, false⟩ ∧
      s'.term.data.cellAt 0 1 =
        some ⟨'B', Color.IndexBase 9, Color.IndexBase 0, Attribute.default, none, true, false⟩ ∧
      s'.term.data.cellAt 0 2 =
        some ⟨'C', Color.IndexBase 7, Color.IndexBase 0, Attribute.default, none, true, false⟩ ∧
      (∀ j, 3 ≤ j → s'.term.data.cellAt 0 j = (Grid.new cols rows).cellAt 0 j) ∧
      (∀ l, 1 ≤ l → s'.term.data.rows.get? l = (Grid.new cols rows).rows.get? l) := by
  have hline : (0 : Nat) < (Grid.new cols rows).rows.length := by
    simp [Grid.new]; omega
  have hcolL : (0 : Nat) +
      ([⟨'A', Color.IndexBase 7, Color.IndexBase 0, Attribute.default, none, true, false⟩,
        ⟨'B', Color.IndexBase 9, Color.IndexBase 0, Attribute.default, none, true, false⟩,
        ⟨'C', Color.IndexBase 7, Color.IndexBase 0, Attribute.default, none, true, false⟩] :
          List Cell).length ≤ (Grid.new cols rows).cols := by
    simp [Grid.new]; omega
  have hpre : (DisplayState.new rows cols).run tokensC5 =
      DisplayState.run
        ⟨⟨0, 0⟩, none,
         ⟨Color.IndexBase 7, Color.IndexBase 0, Attribute.default, false, Grid.new cols rows,
          [⟨'A', Color.IndexBase 7, Color.IndexBase 0, Attribute.default, none, true, false⟩,
           ⟨'B', Color.IndexBase 9, Color.IndexBase 0, Attribute.default, none, true, false⟩,
           ⟨'C', Color.IndexBase 7, Color.IndexBase 0, Attribute.default, none, true, false⟩]⟩⟩
        [Token.execute ControlFunction.carriageReturn,
         Token.execute ControlFunction.lineFeed] := rfl
  rw [hpre]
  simp only [DisplayState.run, DisplayState.step, DisplayState.execute_control,
    Terminal.update]
  have input_insert_nil : ∀ (g : Grid) (cur : Cursor), g.input_insert [] cur = (g, cur) :=
    fun g cur => rfl
  simp only [input_insert_nil]
  have hwf := grid_new_wf cols rows
  refine ⟨_, rfl, ?_, ?_, ?_, ?_, ?_, ?_⟩
  · rw [input_insert_no_wrap _ _ _ hline hcolL]
  · simpa using cellAt_input_insert _ _ _ hwf hline hcolL 0 (by simp)
  · simpa using cellAt_input_insert _ _ _ hwf hline hcolL 1 (by simp)
  · simpa using cellAt_input_insert _ _ _ hwf hline hcolL 2 (by simp)
  · intro j hj
    simpa using cellAt_input_insert_frame _ _ _ hline hcolL j (by simpa using hj)
  · intro l hl
    simpa using rows_input_insert_frame _ _ _ hline hcolL l (by simp; omega)

/-- Witness for C5 on a concrete 2-row, 5-column viewport. -/
theorem c5_end_to_end_scenario_witness :
    ∃ s', (DisplayState.new 2 5).run tokensC5 = some s' ∧
      s'.cursor = ⟨1, 0⟩ ∧
      s'.term.data.cellAt 0 0 =
        some ⟨'A', Color.IndexBase 7, Color.IndexBase 0, Attribute.default, none, true, false⟩ ∧
      s'.term.data.cellAt 0 1 =
        some ⟨'B', Color.IndexBase 9, Color.IndexBase 0, Attribute.default, none, true, false⟩ ∧
      s'.term.data.cellAt 0 2 =
        some ⟨'C', Color.IndexBase 7, Color.IndexBase 0, Attribute.default, none, true, false⟩ ∧
      (∀ j, 3 ≤ j → s'.term.data.cellAt 0 j = (Grid.new 5 2).cellAt 0 j) ∧
      (∀ l, 1 ≤ l → s'.term.data.rows.get? l = (Grid.new 5 2).rows.get? l) :=
  c5_end_to_end_scenario 2 5 (by norm_num) (by norm_num)

/-- Claim C6: the code bug behind it, evaluated at the failing input.
Reverse Index executes `self.cursor.line.0 -= 1` with no lower-bound guard
(src/display.rs:188-190); at cursor line 0 the usize subtraction underflows
(modelled as `none`) instead of clamping the line at 0, while at any
positive line the decrement itself behaves normally (line 1 becomes 0). -/
theorem c6_reverse_index_underflow :
    (DisplayState.new 2 2).execute_control ControlFunction.reverseIndex = none ∧
    stateC9.execute_control ControlFunction.reverseIndex =
      some { stateC9 with cursor := ⟨0, 2⟩ } := by
  constructor <;> rfl

/-- Claim C7, counterexample: the glyph whose cluster span is 3 (cluster
indices 0 then 3, a 3-codepoint cluster) renders at the code's scale
`1/(1+0.1*3) = 10/13 ≈ 0.769`, not at the claimed
`1/(1+0.1*(3-1)) = 5/6 ≈ 0.833`. -/
theorem c7_cluster_scale_cex :
    glyph_scale [0, 3] 0 ≠ 1 / (1 + (1 / 10 : ℚ) * ((3 : ℚ) - 1)) := by
  norm_num [glyph_scale, cluster_span, render_scale]

/-- Claim C7 as amended: for a glyph whose cluster span (next glyph's
cluster index minus its own) is `next - cur`, the render scale is
`1 / (1 + 0.1 * (next - cur))` when the span exceeds 1 and `1` otherwise;
a 3-codepoint cluster therefore renders at scale `10/13 ≈ 0.769`. -/
theorem c7_cluster_scale_formula (clusters : List Nat) (i cur next : Nat)
    (hc : clusters.get? i = some cur) (hn : clusters.get? (i + 1) = some next) :
    (1 < next - cur →
      glyph_scale clusters i = 1 / (1 + ((next - cur : Nat) : ℚ) * (1 / 10))) ∧
    (next - cur ≤ 1 → glyph_scale clusters i = 1) ∧
    (next - cur = 3 → glyph_scale clusters i = 10 / 13) := by
  have hspan : cluster_span clusters i = next - cur := by
    unfold cluster_span
    rw [hn, hc]
  unfold glyph_scale
  rw [hspan]
  refine ⟨?_, ?_, ?_⟩
  · intro h
    rw [render_scale, if_pos h]
  · intro h
    rw [render_scale, if_neg (by omega)]
  · intro h
    rw [h, render_scale, if_pos (by norm_num)]
    norm_num

/-- Witness for C7 on the cluster-index list [0, 3]. -/
theorem c7_cluster_scale_formula_witness :
    (1 < 3 - 0 →
      glyph_scale [0, 3] 0 = 1 / (1 + ((3 - 0 : Nat) : ℚ) * (1 / 10))) ∧
    (3 - 0 ≤ 1 → glyph_scale [0, 3] 0 = 1) ∧
    (3 - 0 = 3 → glyph_scale [0, 3] 0 = 10 / 13) :=
  c7_cluster_scale_formula [0, 3] 0 0 3 rfl rfl

/-- Claim C8, counterexample: no SGR parameter in 1-27 changes anything —
`set_attr` has an empty body, so for every v in 1..27 the whole terminal
state (pen attribute included) is exactly what it was, refuting the
claim that at least one such parameter changes the pen AttributeSet. -/
theorem c8_no_attr_change_cex :
    ((List.range' 1 27).all
      (fun v => (Terminal.new 2 2).rendition [(v : Int)] == Terminal.new 2 2)) = true := by
  decide

/-- Claim C8 as amended: in a short-form SGR list, parameter 0 resets the
pen to defaults (foreground index 7, background index 0, normal attribute),
and every parameter in 1-27 is dispatched to `set_attr`, whose body is
empty in the source — the terminal state is left completely unchanged. -/
theorem c8_attr_params_are_noops (t : Terminal) (v : Int)
    (h1 : 1 ≤ v) (h2 : v ≤ 27) :
    (t.rendition [0]).fg = Color.IndexBase 7 ∧
    (t.rendition [0]).bg = Color.IndexBase 0 ∧
    (t.rendition [0]).attr = Attribute.default ∧
    t.rendition [v] = t := by
  refine ⟨rfl, rfl, rfl, ?_⟩
  show t.apply_short v = t
  unfold Terminal.apply_short
  rw [if_neg (by omega), if_pos ⟨h1, h2⟩]
  rfl

/-- Witness for C8 at the fresh terminal and parameter 5. -/
theorem c8_attr_params_are_noops_witness :
    ((Terminal.new 2 2).rendition [0]).fg = Color.IndexBase 7 ∧
    ((Terminal.new 2 2).rendition [0]).bg = Color.IndexBase 0 ∧
    ((Terminal.new 2 2).rendition [0]).attr = Attribute.default ∧
    (Terminal.new 2 2).rendition [5] = Terminal.new 2 2 :=
  c8_attr_params_are_noops (Terminal.new 2 2) 5 (by norm_num) (by norm_num)

/-- Claim C9: both save-cursor opcodes store a snapshot of the current
cursor into the saved-cursor slot (leaving everything else unchanged), both
restore opcodes replace the cursor with the snapshot and clear the slot
(the snapshot is consumed), and a restore with no saved snapshot leaves the
whole state unchanged. -/
theorem c9_save_restore_cursor (s : DisplayState) :
    (s.csi_dispatch CsiFunction.saveCursor = { s with saved_cursor := some s.cursor }) ∧
    (s.csi_dispatch CsiFunction.saveCursorPosition = { s with saved_cursor := some s.cursor }) ∧
    (∀ cur, s.saved_cursor = some cur →
      s.csi_dispatch CsiFunction.restoreCursor = { s with cursor := cur, saved_cursor := none } ∧
      s.csi_dispatch CsiFunction.restoreSavedCursor =
        { s with cursor := cur, saved_cursor := none }) ∧
    (s.saved_cursor = none →
      s.csi_dispatch CsiFunction.restoreCursor = s ∧
      s.csi_dispatch CsiFunction.restoreSavedCursor = s) := by
  refine ⟨rfl, rfl, ?_, ?_⟩
  · intro cur hcur
    constructor <;> simp [DisplayState.csi_dispatch, hcur]
  · intro hnone
    constructor <;> simp [DisplayState.csi_dispatch, hnone]

/-- Witness for C9: restoring with a saved snapshot moves the cursor there
and clears the slot; restoring without one is a no-op. -/
theorem c9_save_restore_cursor_witness :
    stateC9saved.csi_dispatch CsiFunction.restoreCursor =
      { stateC9saved with cursor := ⟨0, 1⟩, saved_cursor := none } ∧
    stateC9.csi_dispatch CsiFunction.restoreCursor = stateC9 :=
  ⟨((c9_save_restore_cursor stateC9saved).2.2.1 ⟨0, 1⟩ rfl).1,
   ((c9_save_restore_cursor stateC9).2.2.2 rfl).1⟩

/-- Claim C10: in every state reachable through the public handler
interface, every cell of the grid and of the write queue has its
`erasable` flag true, and therefore every selective erase (display- or
line-scoped, any mode flag) produces exactly the same state as the
corresponding unconditional erase. -/
theorem c10_reachable_all_erasable (s : DisplayState) (h : Reachable s) :
    s.AllErasable ∧
    ∀ flag : Nat,
      s.csi_dispatch (CsiFunction.selectiveEraseDisplay flag) =
        s.csi_dispatch (CsiFunction.eraseInDisplay flag) ∧
      s.csi_dispatch (CsiFunction.selectiveEraseLine flag) =
        s.csi_dispatch (CsiFunction.eraseInLine flag) := by
  have hall := reachable_allErasable s h
  refine ⟨hall, fun flag => ⟨?_, ?_⟩⟩
  · exact eraseDisplay_congr s flag hall.1
  · exact eraseLine_congr s flag hall.1

/-- Witness for C10 at the freshly created 2-by-2 display. -/
theorem c10_reachable_all_erasable_witness :
    (DisplayState.new 2 2).AllErasable ∧
    ∀ flag : Nat,
      (DisplayState.new 2 2).csi_dispatch (CsiFunction.selectiveEraseDisplay flag) =
        (DisplayState.new 2 2).csi_dispatch (CsiFunction.eraseInDisplay flag) ∧
      (DisplayState.new 2 2).csi_dispatch (CsiFunction.selectiveEraseLine flag) =
        (DisplayState.new 2 2).csi_dispatch (CsiFunction.eraseInLine flag) :=
  c10_reachable_all_erasable (DisplayState.new 2 2) (Reachable.init 2 2)

end LearnRendering
